import Mathlib

/-!
# x-feed SDK session: stream lifecycle and diff fan-out

A shallow embedding of `session.go` (package `xfeed`): the three accessors
`EventsFeed`, `SettlementsFeed`, `Entities`, the two background receive loops,
`publish` and `parseTimestamp`.

Conventions of the embedding:

* a Go pointer that may be nil is an `Option`; the receiver `s *Session` is an
  `Option Session`;
* a channel is an identity (`Chan`), allocated by `make` from a counter kept in
  the `World`; what was written to it and whether it is closed is recorded in
  the `World`;
* every externally visible action (mutex operations, admission waits, requests,
  goroutine spawns, cancellations, log lines) is appended to `World.trace`;
* the outcomes of external calls (limiter wait, gRPC request, `Recv`,
  `time.Now`) are arguments of the operation that performs the call;
* a goroutine body is a function; the receive loops are given as one step per
  `Recv` plus a driver over a list of `Recv` outcomes.
-/

namespace XFeed

/-! ## Errors -/

/-- Go `error` values that `session.go` creates or passes on. -/
inductive Error where
  /-- Value `errors.New("session is not initialised")` -/
  | notInitialised
  /-- Value `errors.Wrapf(err, "timestamp %v is invalid time", lastConsumed)` -/
  | invalidTime (cause : Error)
  /-- Value `errors.Wrap(err, "can't get SportEntities")` -/
  | cantGetSportEntities (cause : Error)
  /-- Value `errors.Errorf("can't parse x-xfeed_proto GeneratedTs timestamp: ...")` -/
  | cantParseGeneratedTs (cause : Error)
  /-- Value `errors.Errorf("generatedTs timestamp: %v is zero", generatedTs)` -/
  | generatedTsZero
  /-- Message `timestamp: nil Timestamp` -/
  | tsNil
  /-- Message `timestamp: %v before 0001-01-01` -/
  | tsBefore
  /-- Message `timestamp: %v after 10000-01-01` -/
  | tsAfter
  /-- Message `timestamp: %v: nanos not in range [0, 1e9)` -/
  | tsNanos
  /-- an error produced by the limiter or by the transport -/
  | external (code : Nat)
  deriving DecidableEq, Repr

/-! ## Time (`time.Time`, `timestamp.Timestamp`, `ptypes`) -/

/-- Two's complement wrap of an integer to `int64`. -/
def wrapInt64 (x : Int) : Int :=
  (x + 2 ^ 63) % 2 ^ 64 - 2 ^ 63

/-- Offset between the Unix epoch and January 1, year 1 (package `time`,
`unixToInternal`). -/
def unixToInternal : Int := 62135596800

/-- Go `time.Time` in UTC: seconds since January 1, year 1 00:00:00 UTC and
nanoseconds within the second. The zero value of the struct is that instant. -/
structure Time where
  sec : Int
  nsec : Int
  deriving DecidableEq, Repr

/-- The zero value `var t time.Time`. -/
def Time.zero : Time := ⟨0, 0⟩

/-- Go `Time.IsZero`: `t.sec() == 0 && t.nsec() == 0`. -/
def Time.IsZero (t : Time) : Bool :=
  t.sec == 0 && t.nsec == 0

/-- Go `Time.Unix`: seconds since the Unix epoch. -/
def Time.Unix (t : Time) : Int :=
  wrapInt64 (t.sec - unixToInternal)

/-- Go `Time.Nanosecond`. -/
def Time.Nanosecond (t : Time) : Int :=
  t.nsec

/-- Go `time.Unix(sec, nsec)`: out-of-range nanoseconds are carried into the
seconds (truncating division, `int64` arithmetic). -/
def timeUnix (sec nsec : Int) : Time :=
  if nsec < 0 ∨ nsec ≥ 1000000000 then
    let n := Int.tdiv nsec 1000000000
    let sec1 := wrapInt64 (sec + n)
    let nsec1 := nsec - n * 1000000000
    if nsec1 < 0 then
      ⟨wrapInt64 (wrapInt64 (sec1 - 1) + unixToInternal), nsec1 + 1000000000⟩
    else
      ⟨wrapInt64 (sec1 + unixToInternal), nsec1⟩
  else
    ⟨wrapInt64 (sec + unixToInternal), nsec⟩

/-- The Unix epoch, 1970-01-01T00:00:00Z. -/
def unixEpoch : Time := ⟨unixToInternal, 0⟩

/-- Wire timestamp `timestamp.Timestamp` (`Seconds int64`, `Nanos int32`). -/
structure Timestamp where
  Seconds : Int
  Nanos : Int
  deriving DecidableEq, Repr

/-- Seconds of 0001-01-01T00:00:00Z relative to the Unix epoch (`ptypes`). -/
def minValidSeconds : Int := -62135596800

/-- Seconds of 10000-01-01T00:00:00Z relative to the Unix epoch (`ptypes`). -/
def maxValidSeconds : Int := 253402300800

/-- Library `ptypes` (golang/protobuf, not part of this repository):
`validateTimestamp`. -/
def validateTimestamp (ts : Option Timestamp) : Option Error :=
  match ts with
  | none => some Error.tsNil
  | some ts =>
    if ts.Seconds < minValidSeconds then some Error.tsBefore
    else if ts.Seconds ≥ maxValidSeconds then some Error.tsAfter
    else if ts.Nanos < 0 ∨ ts.Nanos ≥ 1000000000 then some Error.tsNanos
    else none

/-- Library `ptypes.Timestamp`: the time `time.Unix` gives (the epoch for a nil
timestamp) together with the validation error. -/
def ptypesTimestamp (ts : Option Timestamp) : Time × Option Error :=
  let t := match ts with
    | none => timeUnix 0 0
    | some ts => timeUnix ts.Seconds ts.Nanos
  (t, validateTimestamp ts)

/-- Library `ptypes.TimestampProto`: the wire form of a time, or the validation
error. -/
def ptypesTimestampProto (t : Time) : Option Timestamp × Option Error :=
  let ts : Timestamp := ⟨t.Unix, t.Nanosecond⟩
  match validateTimestamp (some ts) with
  | some err => (none, some err)
  | none => (some ts, none)

/-- Source `parseTimestamp` (session.go:258-274). -/
def parseTimestamp (genTs : Option Timestamp) : Time × Option Error :=
  match genTs with
  | some ts =>
    match ptypesTimestamp (some ts) with
    | (generatedTs, some err) => (generatedTs, some (Error.cantParseGeneratedTs err))
    | (generatedTs, none) =>
      if generatedTs.IsZero then (generatedTs, some Error.generatedTsZero)
      else (generatedTs, none)
  | none =>
    if Time.zero.IsZero then (Time.zero, some Error.generatedTsZero)
    else (Time.zero, none)

/-! ## Wire messages and domain model

The generated protobuf package `xfeed_proto` and the converters `newEvent`,
`newMarket`, `newFeedAction`, `newEventSettlement`, `newSportDescription` are
not in `session.go`; `session.go` never looks inside the payloads. They are
parameters of the embedding. -/

/-- Payload types and converters used, but not defined, by `session.go`. -/
structure Schema where
  /-- Wire type `pb.FeedEvent` -/
  FeedEvent : Type
  /-- Wire type `pb.FeedMarket` -/
  FeedMarket : Type
  /-- Wire type `pb.EventSettlement` -/
  PbEventSettlement : Type
  /-- Wire type `pb.SportDescription` -/
  PbSportDescription : Type
  /-- Wire type `pb.DiffType` -/
  DiffType : Type
  /-- type of `MarketsDiff.EventId` -/
  EventID : Type
  /-- what `newEvent` returns as its first result -/
  Event : Type
  /-- what `newMarket` returns -/
  Market : Type
  /-- what `newEventSettlement` returns -/
  EventSettlement : Type
  /-- what `newSportDescription` returns -/
  SportDescription : Type
  /-- what `newFeedAction` returns -/
  FeedAction : Type
  /-- zero value of `pb.DiffType`, returned by a getter on a nil message -/
  diffTypeZero : DiffType
  /-- zero value of the event id, returned by a getter on a nil message -/
  eventIDZero : EventID
  newEvent : FeedEvent → Event × Option Error
  newMarket : FeedMarket → Market
  newFeedAction : DiffType → FeedAction
  newEventSettlement : Option PbEventSettlement → EventSettlement
  newSportDescription : Option PbSportDescription → String → SportDescription

/-- Wire type `pb.EventDiff` -/
structure EventDiff (S : Schema) where
  Event : Option S.FeedEvent
  DiffType : S.DiffType

/-- Wire type `pb.MarketDiff` -/
structure MarketDiff (S : Schema) where
  Market : Option S.FeedMarket
  DiffType : S.DiffType

/-- Wire type `pb.MarketsDiff`: the market diffs of one parent event. -/
structure MarketsDiff (S : Schema) where
  EventId : S.EventID
  EventMarketsDiffs : List (Option (MarketDiff S))

/-- Wire type `pb.DiffsMessage` -/
structure DiffsMessage (S : Schema) where
  EventDiffs : List (Option (EventDiff S))
  MarketDiffs : List (Option (MarketsDiff S))

/-- Wire type `pb.StreamEventsResponse` -/
structure StreamEventsResponse (S : Schema) where
  GeneratedTs : Option Timestamp
  DiffsMessage : Option (DiffsMessage S)

/-- Wire type `pb.MultipleEventsSettlement` -/
structure MultipleEventsSettlement (S : Schema) where
  EventSettlement : List (Option S.PbEventSettlement)

/-- Wire type `pb.StreamSettlementsResponse` -/
structure StreamSettlementsResponse (S : Schema) where
  DiffTimestamp : Option Timestamp
  MultipleEventsSettlement : Option (MultipleEventsSettlement S)

/-- Wire type `pb.SportDescriptionsResponse` -/
structure SportDescriptionsResponse (S : Schema) where
  SportDescriptions : List (Option S.PbSportDescription)

/-- Nil-safe getter `(*EventDiff).GetEvent`. -/
def EventDiff.GetEvent {S : Schema} (d : Option (EventDiff S)) : Option S.FeedEvent :=
  match d with
  | none => none
  | some d => d.Event

/-- Nil-safe getter `(*EventDiff).GetDiffType`. -/
def EventDiff.GetDiffType {S : Schema} (d : Option (EventDiff S)) : S.DiffType :=
  match d with
  | none => S.diffTypeZero
  | some d => d.DiffType

/-- Nil-safe getter `(*MarketDiff).GetMarket`. -/
def MarketDiff.GetMarket {S : Schema} (d : Option (MarketDiff S)) : Option S.FeedMarket :=
  match d with
  | none => none
  | some d => d.Market

/-- Nil-safe getter `(*MarketDiff).GetDiffType`. -/
def MarketDiff.GetDiffType {S : Schema} (d : Option (MarketDiff S)) : S.DiffType :=
  match d with
  | none => S.diffTypeZero
  | some d => d.DiffType

/-- Nil-safe getter `(*MarketsDiff).GetEventMarketsDiffs`. -/
def MarketsDiff.GetEventMarketsDiffs {S : Schema} (d : Option (MarketsDiff S)) :
    List (Option (MarketDiff S)) :=
  match d with
  | none => []
  | some d => d.EventMarketsDiffs

/-- Nil-safe getter `(*MarketsDiff).GetEventId`. -/
def MarketsDiff.GetEventId {S : Schema} (d : Option (MarketsDiff S)) : S.EventID :=
  match d with
  | none => S.eventIDZero
  | some d => d.EventId

/-- Nil-safe getter `(*DiffsMessage).GetEventDiffs`. -/
def DiffsMessage.GetEventDiffs {S : Schema} (d : Option (DiffsMessage S)) :
    List (Option (EventDiff S)) :=
  match d with
  | none => []
  | some d => d.EventDiffs

/-- Nil-safe getter `(*DiffsMessage).GetMarketDiffs`. -/
def DiffsMessage.GetMarketDiffs {S : Schema} (d : Option (DiffsMessage S)) :
    List (Option (MarketsDiff S)) :=
  match d with
  | none => []
  | some d => d.MarketDiffs

/-- Nil-safe getter `(*MultipleEventsSettlement).GetEventSettlement`. -/
def MultipleEventsSettlement.GetEventSettlement {S : Schema}
    (d : Option (MultipleEventsSettlement S)) : List (Option S.PbEventSettlement) :=
  match d with
  | none => []
  | some d => d.EventSettlement

/-- Envelope type `EventEnvelope` -/
structure EventEnvelope (S : Schema) where
  EventDiff : S.Event
  GeneratedAt : Time
  Action : S.FeedAction

/-- Envelope type `MarketEnvelope` -/
structure MarketEnvelope (S : Schema) where
  EventID : S.EventID
  MarketDiff : S.Market
  GeneratedAt : Time
  Action : S.FeedAction

/-- Envelope type `EventSettlementEnvelope` -/
structure EventSettlementEnvelope (S : Schema) where
  EventSettlement : S.EventSettlement
  GeneratedAt : Time

/-! ## Session and world -/

/-- Identity of a channel created by `make`. -/
abbrev Chan := Nat

/-- The three mutexes of a `Session`. -/
inductive Mutex where
  | eventsFeed
  | eventSettlements
  | entities
  deriving DecidableEq, Repr

/-- Externally visible actions, in the order they are performed. -/
inductive Effect where
  | lock (m : Mutex)
  | unlock (m : Mutex)
  /-- Call `s.limiter.Wait(context.Background())` -/
  | limiterWait
  /-- Call `StreamEvents(ctx, &pb.StreamEventsRequest{ClientName})` -/
  | streamEvents (clientName : String)
  /-- Call `StreamSettlements(ctx, &pb.StreamSettlementsRequest{...})` -/
  | streamSettlements (clientName : String) (lastConsumed : Option Timestamp)
  /-- Call `GetSportDescriptions(ctx, &pb.SportDescriptionsRequest{Lang})` -/
  | getSportDescriptions (lang : String)
  /-- a context cancel function is called -/
  | cancel
  /-- Statement `go func ...` of the events receive loop -/
  | spawnEventsLoop
  /-- Statement `go func ...` of the settlements receive loop -/
  | spawnSettlementsLoop
  /-- a call of `s.logger` -/
  | log
  deriving DecidableEq, Repr

/-- Struct `Session` (session.go:18-34). The logger, limiter, connection and mutexes
are external handles: what is done with them is recorded in `World.trace`. -/
structure Session where
  requestTimeout : Nat
  clientID : String
  eventsStream : Option Chan
  marketsStream : Option Chan
  eventSettlements : Option Chan
  deriving DecidableEq, Repr

/-- Everything outside the session struct: the channel allocator, which
channels are closed, what was written to each channel, and the trace. -/
structure World (S : Schema) where
  nextChan : Nat
  closed : List Chan
  trace : List Effect
  eventsOut : List (Chan × EventEnvelope S)
  marketsOut : List (Chan × MarketEnvelope S)
  settlementsOut : List (Chan × EventSettlementEnvelope S)

/-- Append one action to the trace. -/
def World.emit {S : Schema} (w : World S) (e : Effect) : World S :=
  { w with trace := w.trace ++ [e] }

/-- Go `make(chan T)`: a channel distinct from every channel made before. -/
def World.makeChan {S : Schema} (w : World S) : Chan × World S :=
  (w.nextChan, { w with nextChan := w.nextChan + 1 })

/-- Go `close(c)`: panics (`none`) on a nil or an already closed channel. -/
def World.closeChan {S : Schema} (w : World S) (c : Option Chan) : Option (World S) :=
  match c with
  | none => none
  | some c => if c ∈ w.closed then none else some { w with closed := c :: w.closed }

/-- Go `c <- v` on the entity channel with a consumer reading: never completes
on a nil channel and panics on a closed one (both `none`). -/
def World.sendEvent {S : Schema} (w : World S) (c : Option Chan) (v : EventEnvelope S) :
    Option (World S) :=
  match c with
  | none => none
  | some c =>
    if c ∈ w.closed then none else some { w with eventsOut := w.eventsOut ++ [(c, v)] }

/-- Go `c <- v` on the market channel, as `World.sendEvent`. -/
def World.sendMarket {S : Schema} (w : World S) (c : Option Chan) (v : MarketEnvelope S) :
    Option (World S) :=
  match c with
  | none => none
  | some c =>
    if c ∈ w.closed then none else some { w with marketsOut := w.marketsOut ++ [(c, v)] }

/-- Go `c <- v` on the settlement channel, as `World.sendEvent`. -/
def World.sendSettlement {S : Schema} (w : World S) (c : Option Chan)
    (v : EventSettlementEnvelope S) : Option (World S) :=
  match c with
  | none => none
  | some c =>
    if c ∈ w.closed then none
    else some { w with settlementsOut := w.settlementsOut ++ [(c, v)] }

/-! ## `publish` (session.go:200-256) -/

/-- First goroutine of `publish` (session.go:211-232): the loop over the entity
diffs. `none` when a write never completes. -/
def publishEvents {S : Schema} (s : Session) (generatedTs : Time) :
    List (Option (EventDiff S)) → World S → Option (World S)
  | [], w => some w
  | eventDiff :: rest, w =>
    match EventDiff.GetEvent eventDiff with
    | none => publishEvents s generatedTs rest w
    | some event =>
      let r := S.newEvent event
      let w1 := match r.2 with
        | some _ => (w.emit Effect.log).emit Effect.log
        | none => w
      match w1.sendEvent s.eventsStream
          ⟨r.1, generatedTs, S.newFeedAction (EventDiff.GetDiffType eventDiff)⟩ with
      | none => none
      | some w2 => publishEvents s generatedTs rest w2

/-- Inner loop of the second goroutine of `publish` (session.go:236-249): the
market diffs of one group `marketsDiffs`. -/
def publishMarketGroup {S : Schema} (s : Session) (generatedTs : Time)
    (marketsDiffs : Option (MarketsDiff S)) :
    List (Option (MarketDiff S)) → World S → Option (World S)
  | [], w => some w
  | marketDiff :: rest, w =>
    match marketDiff, MarketDiff.GetMarket marketDiff with
    | none, _ => publishMarketGroup s generatedTs marketsDiffs rest w
    | some _, none => publishMarketGroup s generatedTs marketsDiffs rest w
    | some _, some m =>
      match w.sendMarket s.marketsStream
          ⟨MarketsDiff.GetEventId marketsDiffs, S.newMarket m, generatedTs,
            S.newFeedAction (MarketDiff.GetDiffType marketDiff)⟩ with
      | none => none
      | some w2 => publishMarketGroup s generatedTs marketsDiffs rest w2

/-- Second goroutine of `publish` (session.go:234-252): the loop over the
groups. -/
def publishMarkets {S : Schema} (s : Session) (generatedTs : Time) :
    List (Option (MarketsDiff S)) → World S → Option (World S)
  | [], w => some w
  | marketsDiffs :: rest, w =>
    match publishMarketGroup s generatedTs marketsDiffs
        (MarketsDiff.GetEventMarketsDiffs marketsDiffs) w with
    | none => none
    | some w2 => publishMarkets s generatedTs rest w2

/-- The timestamp `publish` and the settlement loop stamp on envelopes:
`parseTimestamp`, replaced by `time.Now()` on error. -/
def resolveTs (now : Time) (ts : Option Timestamp) : Time :=
  match parseTimestamp ts with
  | (_, some _) => now
  | (generatedTs, none) => generatedTs

/-- Source `Session.publish` (session.go:200-256). The two goroutines write to
different channels and share nothing else, so their effects are recorded one
after the other; `wg.Wait()` makes the call return only once both are done:
`none` when one of them never finishes. `now` is what `time.Now()` returns. -/
def publish {S : Schema} (now : Time) (s : Session) (eventsResponse : StreamEventsResponse S)
    (w : World S) : Option (World S) :=
  match eventsResponse.DiffsMessage with
  | some diff =>
    let generatedTs := resolveTs now eventsResponse.GeneratedTs
    match publishEvents s generatedTs (DiffsMessage.GetEventDiffs (some diff)) w with
    | none => none
    | some w1 => publishMarkets s generatedTs (DiffsMessage.GetMarketDiffs (some diff)) w1
  | none => some w

/-! ## Accessors and receive loops -/

/-- Outcomes of the external calls of one `EventsFeed` or `SettlementsFeed`
call: the error of `s.limiter.Wait` and the error of the stream request. Each
is read only if the call gets that far. -/
structure CallEnv where
  wait : Option Error
  request : Option Error
  deriving DecidableEq, Repr

/-- What `EventsFeed` returns. -/
structure EventsFeedResult where
  events : Option Chan
  markets : Option Chan
  err : Option Error
  deriving DecidableEq, Repr

/-- Source `Session.EventsFeed` (session.go:38-89), up to the start of the
goroutine, which is recorded as `Effect.spawnEventsLoop`; its body is
`eventsLoopStep`. Returns the results, the session struct behind the receiver
and the world. -/
def EventsFeed {S : Schema} (env : CallEnv) (s : Option Session) (w : World S) :
    EventsFeedResult × Option Session × World S :=
  match s with
  | none => (⟨none, none, some Error.notInitialised⟩, none, w)
  | some s =>
    let w := w.emit (Effect.lock Mutex.eventsFeed)
    if s.eventsStream.isSome && s.marketsStream.isSome then
      (⟨s.eventsStream, s.marketsStream, none⟩, some s, w.emit (Effect.unlock Mutex.eventsFeed))
    else
      let w := w.emit Effect.limiterWait
      match env.wait with
      | some err => (⟨none, none, some err⟩, some s, w.emit (Effect.unlock Mutex.eventsFeed))
      | none =>
        let w := w.emit (Effect.streamEvents s.clientID)
        match env.request with
        | some err =>
          let w := w.emit Effect.cancel
          (⟨none, none, some err⟩, some s, w.emit (Effect.unlock Mutex.eventsFeed))
        | none =>
          let (c1, w) := w.makeChan
          let s := { s with eventsStream := some c1 }
          let (c2, w) := w.makeChan
          let s := { s with marketsStream := some c2 }
          let w := w.emit Effect.spawnEventsLoop
          (⟨s.eventsStream, s.marketsStream, none⟩, some s,
            w.emit (Effect.unlock Mutex.eventsFeed))

/-- State of a receive loop after one iteration. -/
inductive LoopState (S : Schema) where
  /-- the iteration finished and the loop is at its next `Recv` -/
  | running (s : Session) (w : World S)
  /-- the loop returned (after running the deferred cancel) -/
  | exited (s : Session) (w : World S)
  /-- the goroutine is stuck in a write that never completes, or panicked -/
  | stuck

/-- One iteration of the goroutine of `EventsFeed` (session.go:72-85): `recv` is
what `eventResponseStream.Recv()` returns. -/
def eventsLoopStep {S : Schema} (now : Time) (recv : Except Error (StreamEventsResponse S))
    (s : Session) (w : World S) : LoopState S :=
  match recv with
  | Except.error _ =>
    let w := w.emit Effect.log
    match w.closeChan s.eventsStream with
    | none => LoopState.stuck
    | some w =>
      match w.closeChan s.marketsStream with
      | none => LoopState.stuck
      | some w =>
        let s := { s with eventsStream := none }
        let s := { s with marketsStream := none }
        LoopState.exited s (w.emit Effect.cancel)
  | Except.ok eventsResponse =>
    match publish now s eventsResponse w with
    | none => LoopState.stuck
    | some w => LoopState.running s w

/-- The goroutine of `EventsFeed` run over a list of `Recv` outcomes, each with
the clock reading of its iteration. -/
def eventsLoop {S : Schema} :
    List (Time × Except Error (StreamEventsResponse S)) → Session → World S → LoopState S
  | [], s, w => LoopState.running s w
  | (now, recv) :: rest, s, w =>
    match eventsLoopStep now recv s w with
    | LoopState.running s1 w1 => eventsLoop rest s1 w1
    | LoopState.exited s1 w1 => LoopState.exited s1 w1
    | LoopState.stuck => LoopState.stuck

/-- What `SettlementsFeed` returns. -/
structure SettlementsFeedResult where
  settlements : Option Chan
  err : Option Error
  deriving DecidableEq, Repr

/-- Source `Session.SettlementsFeed` (session.go:93-163), up to the start of
the goroutine, which is recorded as `Effect.spawnSettlementsLoop`; its body is
`settlementsLoopStep`. -/
def SettlementsFeed {S : Schema} (env : CallEnv) (s : Option Session) (lastConsumed : Time)
    (w : World S) : SettlementsFeedResult × Option Session × World S :=
  match s with
  | none => (⟨none, some Error.notInitialised⟩, none, w)
  | some s =>
    let w := w.emit (Effect.lock Mutex.eventSettlements)
    if s.eventSettlements.isSome then
      (⟨s.eventSettlements, none⟩, some s, w.emit (Effect.unlock Mutex.eventSettlements))
    else
      match ptypesTimestampProto lastConsumed with
      | (_, some err) =>
        (⟨none, some (Error.invalidTime err)⟩, some s,
          w.emit (Effect.unlock Mutex.eventSettlements))
      | (lConsumed, none) =>
        let w := w.emit Effect.limiterWait
        match env.wait with
        | some err =>
          (⟨none, some err⟩, some s, w.emit (Effect.unlock Mutex.eventSettlements))
        | none =>
          let w := w.emit (Effect.streamSettlements s.clientID lConsumed)
          match env.request with
          | some err =>
            let w := w.emit Effect.cancel
            (⟨none, some err⟩, some s, w.emit (Effect.unlock Mutex.eventSettlements))
          | none =>
            let (c, w) := w.makeChan
            let s := { s with eventSettlements := some c }
            let w := w.emit Effect.spawnSettlementsLoop
            (⟨s.eventSettlements, none⟩, some s,
              w.emit (Effect.unlock Mutex.eventSettlements))

/-- The loop of session.go:153-158: one write per settlement item. -/
def publishSettlements {S : Schema} (s : Session) (generatedTs : Time) :
    List (Option S.PbEventSettlement) → World S → Option (World S)
  | [], w => some w
  | eventSettlement :: rest, w =>
    match w.sendSettlement s.eventSettlements
        ⟨S.newEventSettlement eventSettlement, generatedTs⟩ with
    | none => none
    | some w2 => publishSettlements s generatedTs rest w2

/-- One iteration of the goroutine of `SettlementsFeed` (session.go:133-159):
`recv` is what `settlementResponseStream.Recv()` returns. -/
def settlementsLoopStep {S : Schema} (now : Time)
    (recv : Except Error (StreamSettlementsResponse S)) (s : Session) (w : World S) :
    LoopState S :=
  match recv with
  | Except.error _ =>
    let w := w.emit Effect.log
    match w.closeChan s.eventSettlements with
    | none => LoopState.stuck
    | some w =>
      let s := { s with eventSettlements := none }
      LoopState.exited s (w.emit Effect.cancel)
  | Except.ok settlementResponse =>
    let generatedTs := resolveTs now settlementResponse.DiffTimestamp
    match settlementResponse.MultipleEventsSettlement with
    | none => LoopState.running s (w.emit Effect.log)
    | some batch =>
      match publishSettlements s generatedTs
          (MultipleEventsSettlement.GetEventSettlement (some batch)) w with
      | none => LoopState.stuck
      | some w => LoopState.running s w

/-- The goroutine of `SettlementsFeed` run over a list of `Recv` outcomes. -/
def settlementsLoop {S : Schema} :
    List (Time × Except Error (StreamSettlementsResponse S)) → Session → World S → LoopState S
  | [], s, w => LoopState.running s w
  | (now, recv) :: rest, s, w =>
    match settlementsLoopStep now recv s w with
    | LoopState.running s1 w1 => settlementsLoop rest s1 w1
    | LoopState.exited s1 w1 => LoopState.exited s1 w1
    | LoopState.stuck => LoopState.stuck

/-- Outcomes of the external calls of one `Entities` call. -/
structure EntitiesEnv (S : Schema) where
  wait : Option Error
  response : Except Error (Option (SportDescriptionsResponse S))

/-- Nil-safe getter `(*SportDescriptionsResponse).GetSportDescriptions`. -/
def SportDescriptionsResponse.GetSportDescriptions {S : Schema}
    (d : Option (SportDescriptionsResponse S)) : List (Option S.PbSportDescription) :=
  match d with
  | none => []
  | some d => d.SportDescriptions

/-- Source `Session.Entities` (session.go:167-198). The slice result is `none`
for a nil slice. The deferred calls run in reverse order: cancel, then
unlock. -/
def Entities {S : Schema} (env : EntitiesEnv S) (s : Option Session) (language : String)
    (w : World S) : (Option (List S.SportDescription) × Option Error) × World S :=
  match s with
  | none => ((none, some Error.notInitialised), w)
  | some _ =>
    let w := w.emit (Effect.lock Mutex.entities)
    let w := w.emit Effect.limiterWait
    match env.wait with
    | some err =>
      ((none, some err), (w.emit Effect.cancel).emit (Effect.unlock Mutex.entities))
    | none =>
      let w := w.emit (Effect.getSportDescriptions language)
      match env.response with
      | Except.error err =>
        ((none, some (Error.cantGetSportEntities err)),
          (w.emit Effect.cancel).emit (Effect.unlock Mutex.entities))
      | Except.ok entities =>
        let result := (SportDescriptionsResponse.GetSportDescriptions entities).map
          (fun sportDescription => S.newSportDescription sportDescription language)
        ((some result, none), (w.emit Effect.cancel).emit (Effect.unlock Mutex.entities))

/-! ## The two halves of a teardown

The loops run unlocked, so an accessor call can fall between the `close`
calls and the assignments that clear the handles. These definitions cut the
error branch of each loop at that point. -/

/-- Error branch of the events loop up to the `close` calls
(session.go:75-77): the log line and the two closes; the handles are still
set. `none` when a `close` panics. -/
def eventsLoopClose {S : Schema} (s : Session) (w : World S) : Option (World S) :=
  let w := w.emit Effect.log
  match w.closeChan s.eventsStream with
  | none => none
  | some w => w.closeChan s.marketsStream

/-- Error branch of the events loop after the `close` calls
(session.go:78-81): the handles are cleared, the loop returns and the deferred
cancel runs. -/
def eventsLoopClear {S : Schema} (s : Session) (w : World S) : Session × World S :=
  let s := { s with eventsStream := none }
  let s := { s with marketsStream := none }
  (s, w.emit Effect.cancel)

/-- Error branch of the settlements loop up to the `close` call
(session.go:136-137). -/
def settlementsLoopClose {S : Schema} (s : Session) (w : World S) : Option (World S) :=
  let w := w.emit Effect.log
  w.closeChan s.eventSettlements

/-- Error branch of the settlements loop after the `close` call
(session.go:138-140). -/
def settlementsLoopClear {S : Schema} (s : Session) (w : World S) : Session × World S :=
  let s := { s with eventSettlements := none }
  (s, w.emit Effect.cancel)

/-! ## A concrete schema for evaluation -/

/-- A schema over natural numbers: `newEvent` fails on odd payloads (and still
returns a value), the other converters are simple arithmetic. -/
@[reducible]
def natSchema : Schema where
  FeedEvent := Nat
  FeedMarket := Nat
  PbEventSettlement := Nat
  PbSportDescription := Nat
  DiffType := Nat
  EventID := Nat
  Event := Nat
  Market := Nat
  EventSettlement := Nat
  SportDescription := Nat
  FeedAction := Nat
  diffTypeZero := 0
  eventIDZero := 0
  newEvent := fun e => (e + 100, if e % 2 = 1 then some (Error.external e) else none)
  newMarket := fun m => m + 200
  newFeedAction := fun d => d
  newEventSettlement := fun e => e.getD 0 + 300
  newSportDescription := fun d _ => d.getD 0 + 400

/-- An empty world. -/
def World.init (S : Schema) : World S :=
  ⟨0, [], [], [], [], []⟩

/-- A session as `NewClient` builds it (client.go:68-73): no stream is live. -/
def Session.init (requestTimeout : Nat) : Session :=
  ⟨requestTimeout, "", none, none, none⟩

/-! ## Specification-side definitions -/

/-- The envelope the entity worker builds for one entity diff, if its payload is
present. -/
def eventEnvelopeOf {S : Schema} (generatedTs : Time) (d : Option (EventDiff S)) :
    Option (EventEnvelope S) :=
  (EventDiff.GetEvent d).map fun event =>
    ⟨(S.newEvent event).1, generatedTs, S.newFeedAction (EventDiff.GetDiffType d)⟩

/-- Entity envelopes of a message in source order: one per entity diff whose
payload is present. -/
def eventEnvelopes {S : Schema} (generatedTs : Time) (eventDiffs : List (Option (EventDiff S))) :
    List (EventEnvelope S) :=
  eventDiffs.filterMap (eventEnvelopeOf generatedTs)

/-- The envelope the market worker builds for one market diff of the group
`g`, if the diff is non-nil and its payload is present. -/
def marketEnvelopeOf {S : Schema} (generatedTs : Time) (g : Option (MarketsDiff S))
    (d : Option (MarketDiff S)) : Option (MarketEnvelope S) :=
  match d with
  | none => none
  | some md => md.Market.map fun m =>
    ⟨MarketsDiff.GetEventId g, S.newMarket m, generatedTs, S.newFeedAction md.DiffType⟩

/-- Market envelopes of a message in source order of groups, then of diffs. -/
def marketEnvelopes {S : Schema} (generatedTs : Time) (groups : List (Option (MarketsDiff S))) :
    List (MarketEnvelope S) :=
  groups.flatMap fun g =>
    (MarketsDiff.GetEventMarketsDiffs g).filterMap (marketEnvelopeOf generatedTs g)

/-- Log lines of the entity worker: two per entity diff whose conversion
fails. -/
def eventLogs {S : Schema} : List (Option (EventDiff S)) → List Effect
  | [] => []
  | d :: rest =>
    match EventDiff.GetEvent d with
    | none => eventLogs rest
    | some event =>
      match (S.newEvent event).2 with
      | some _ => Effect.log :: Effect.log :: eventLogs rest
      | none => eventLogs rest

/-- Number of entity diffs of a message (all of them). -/
def entityDiffCount {S : Schema} (m : StreamEventsResponse S) : Nat :=
  (DiffsMessage.GetEventDiffs m.DiffsMessage).length

/-- Number of market diffs of a message, over all groups (all of them). -/
def marketDiffCount {S : Schema} (m : StreamEventsResponse S) : Nat :=
  ((DiffsMessage.GetMarketDiffs m.DiffsMessage).map fun g =>
    (MarketsDiff.GetEventMarketsDiffs g).length).sum

/-- Number of entity diffs of a message whose entity payload is present. -/
def presentEntityDiffCount {S : Schema} (m : StreamEventsResponse S) : Nat :=
  ((DiffsMessage.GetEventDiffs m.DiffsMessage).filter fun d =>
    (EventDiff.GetEvent d).isSome).length

/-- Number of market diffs of a message, over all groups, that are non-nil and
whose market payload is present. -/
def presentMarketDiffCount {S : Schema} (m : StreamEventsResponse S) : Nat :=
  ((DiffsMessage.GetMarketDiffs m.DiffsMessage).map fun g =>
    ((MarketsDiff.GetEventMarketsDiffs g).filter fun d =>
      (MarketDiff.GetMarket d).isSome).length).sum

/-- Number of stream-events requests in a trace. -/
def streamEventsCount (tr : List Effect) : Nat :=
  tr.countP fun e => match e with
    | Effect.streamEvents _ => true
    | _ => false

/-- Number of stream-settlements requests in a trace. -/
def streamSettlementsCount (tr : List Effect) : Nat :=
  tr.countP fun e => match e with
    | Effect.streamSettlements _ _ => true
    | _ => false

/-- A wire timestamp is in the range `ptypes` accepts. -/
def Timestamp.InRange (ts : Timestamp) : Prop :=
  minValidSeconds ≤ ts.Seconds ∧ ts.Seconds < maxValidSeconds ∧
    0 ≤ ts.Nanos ∧ ts.Nanos < 1000000000

/-- A time has a wire form: `ptypes.TimestampProto` accepts it. -/
def Time.Representable (t : Time) : Prop :=
  (ptypesTimestampProto t).2 = none

instance (t : Time) : Decidable t.Representable :=
  inferInstanceAs (Decidable ((ptypesTimestampProto t).2 = none))

/-! ## Concrete inputs -/

/-- A session with all three streams live on channels 0, 1 and 2. -/
def activeSession : Session :=
  ⟨30, "client", some 0, some 1, some 2⟩

/-- A world in which channels 0, 1 and 2 have been made and none is closed. -/
def activeWorld : World natSchema :=
  ⟨3, [], [], [], [], []⟩

/-- A message with one entity diff whose payload is absent and one market
group holding a nil market diff. -/
def absentPayloadMessage : StreamEventsResponse natSchema :=
  ⟨some ⟨5, 0⟩, some ⟨[some ⟨none, 1⟩], [some ⟨7, [none]⟩]⟩⟩

/-- A message with one entity diff whose payload 1 fails conversion. -/
def malformedMessage : StreamEventsResponse natSchema :=
  ⟨some ⟨5, 0⟩, some ⟨[some ⟨some 1, 2⟩], []⟩⟩

/-- A message with three entity diffs (the middle one fails conversion, the
last has no payload) and two market groups. -/
def mixedMessage : StreamEventsResponse natSchema :=
  ⟨some ⟨5, 0⟩,
    some ⟨[some ⟨some 2, 1⟩, some ⟨some 3, 2⟩, some ⟨none, 3⟩],
      [some ⟨7, [some ⟨some 4, 1⟩, none]⟩, none, some ⟨8, [some ⟨none, 2⟩, some ⟨some 6, 3⟩]⟩]⟩⟩

/-- A settlement response with a batch of two items and no timestamp. -/
def settlementBatch : StreamSettlementsResponse natSchema :=
  ⟨none, some ⟨[some 1, none]⟩⟩

/-- A time before year 1: it has no wire form. -/
def beforeYearOne : Time := ⟨-1, 0⟩

/-! ## Lemmas on the workers -/

theorem publishEvents_eq {S : Schema} (s : Session) (c : Chan) (generatedTs : Time)
    (hs : s.eventsStream = some c) (diffs : List (Option (EventDiff S))) :
    ∀ w : World S, c ∉ w.closed →
      publishEvents s generatedTs diffs w = some
        { w with
          eventsOut := w.eventsOut ++ (eventEnvelopes generatedTs diffs).map (Prod.mk c)
          trace := w.trace ++ eventLogs diffs } := by
  induction diffs with
  | nil => intro w _; simp [publishEvents, eventEnvelopes, eventLogs]
  | cons d rest ih =>
    intro w hc
    unfold publishEvents
    cases hd : EventDiff.GetEvent d with
    | none =>
      simp only []
      rw [ih w hc]
      simp [eventEnvelopes, eventLogs, eventEnvelopeOf, hd]
    | some event =>
      simp only []
      cases he : (S.newEvent event).2 with
      | none =>
        simp only [World.sendEvent, hs, hc, if_false]
        rw [ih]
        · simp [eventEnvelopes, eventLogs, eventEnvelopeOf, hd, he]
        · exact hc
      | some err =>
        simp only [World.sendEvent, World.emit, hs, hc, if_false]
        rw [ih]
        · simp [eventEnvelopes, eventLogs, eventEnvelopeOf, hd, he]
        · exact hc

theorem publishMarketGroup_eq {S : Schema} (s : Session) (c : Chan) (generatedTs : Time)
    (hs : s.marketsStream = some c) (g : Option (MarketsDiff S))
    (diffs : List (Option (MarketDiff S))) :
    ∀ w : World S, c ∉ w.closed →
      publishMarketGroup s generatedTs g diffs w = some
        { w with
          marketsOut := w.marketsOut ++
            (diffs.filterMap (marketEnvelopeOf generatedTs g)).map (Prod.mk c) } := by
  induction diffs with
  | nil => intro w _; simp [publishMarketGroup]
  | cons d rest ih =>
    intro w hc
    cases d with
    | none =>
      simp only [publishMarketGroup]
      rw [ih w hc]
      simp [marketEnvelopeOf]
    | some md =>
      cases hm : md.Market with
      | none =>
        simp only [publishMarketGroup, MarketDiff.GetMarket, hm]
        rw [ih w hc]
        simp [marketEnvelopeOf, hm]
      | some m =>
        simp only [publishMarketGroup, MarketDiff.GetMarket, hm, World.sendMarket, hs, hc,
          if_false]
        rw [ih]
        · simp [marketEnvelopeOf, hm, MarketDiff.GetDiffType]
        · exact hc

theorem publishMarkets_eq {S : Schema} (s : Session) (c : Chan) (generatedTs : Time)
    (hs : s.marketsStream = some c) (groups : List (Option (MarketsDiff S))) :
    ∀ w : World S, c ∉ w.closed →
      publishMarkets s generatedTs groups w = some
        { w with
          marketsOut := w.marketsOut ++
            (marketEnvelopes generatedTs groups).map (Prod.mk c) } := by
  induction groups with
  | nil => intro w _; simp [publishMarkets, marketEnvelopes]
  | cons g rest ih =>
    intro w hc
    simp only [publishMarkets]
    rw [publishMarketGroup_eq s c generatedTs hs g _ w hc]
    simp only []
    rw [ih]
    · simp [marketEnvelopes]
    · exact hc

theorem publishSettlements_eq {S : Schema} (s : Session) (c : Chan) (generatedTs : Time)
    (hs : s.eventSettlements = some c) (items : List (Option S.PbEventSettlement)) :
    ∀ w : World S, c ∉ w.closed →
      publishSettlements s generatedTs items w = some
        { w with
          settlementsOut := w.settlementsOut ++
            items.map fun it => (c, ⟨S.newEventSettlement it, generatedTs⟩) } := by
  induction items with
  | nil => intro w _; simp [publishSettlements]
  | cons it rest ih =>
    intro w hc
    simp only [publishSettlements, World.sendSettlement, hs, hc, if_false]
    rw [ih]
    · simp
    · exact hc

theorem length_filterMap_eq_filter {α β : Type} (f : α → Option β) (l : List α) :
    (l.filterMap f).length = (l.filter fun x => (f x).isSome).length := by
  induction l with
  | nil => rfl
  | cons x rest ih =>
    cases hx : f x <;> simp [List.filterMap_cons, List.filter_cons, hx, ih]

theorem eventEnvelopeOf_isSome {S : Schema} (ts : Time) (d : Option (EventDiff S)) :
    (eventEnvelopeOf ts d).isSome = (EventDiff.GetEvent d).isSome := by
  simp [eventEnvelopeOf]

theorem marketEnvelopeOf_isSome {S : Schema} (ts : Time) (g : Option (MarketsDiff S))
    (d : Option (MarketDiff S)) :
    (marketEnvelopeOf ts g d).isSome = (MarketDiff.GetMarket d).isSome := by
  cases d with
  | none => rfl
  | some md => simp [marketEnvelopeOf, MarketDiff.GetMarket]

theorem eventEnvelopes_length {S : Schema} (ts : Time) (diffs : List (Option (EventDiff S))) :
    (eventEnvelopes ts diffs).length =
      (diffs.filter fun d => (EventDiff.GetEvent d).isSome).length := by
  unfold eventEnvelopes
  rw [length_filterMap_eq_filter]
  simp only [eventEnvelopeOf_isSome]

theorem marketEnvelopes_length {S : Schema} (ts : Time) (groups : List (Option (MarketsDiff S))) :
    (marketEnvelopes ts groups).length =
      (groups.map fun g => ((MarketsDiff.GetEventMarketsDiffs g).filter fun d =>
        (MarketDiff.GetMarket d).isSome).length).sum := by
  induction groups with
  | nil => rfl
  | cons g rest ih =>
    unfold marketEnvelopes at ih ⊢
    rw [List.flatMap_cons, List.length_append, ih, length_filterMap_eq_filter]
    simp only [marketEnvelopeOf_isSome, List.map_cons, List.sum_cons]

theorem eventEnvelopes_generatedAt {S : Schema} (ts : Time)
    (diffs : List (Option (EventDiff S))) :
    ∀ x ∈ eventEnvelopes ts diffs, x.GeneratedAt = ts := by
  intro x hx
  simp only [eventEnvelopes, List.mem_filterMap, eventEnvelopeOf, Option.map_eq_some'] at hx
  obtain ⟨d, _, ev, _, rfl⟩ := hx
  rfl

theorem marketEnvelopes_generatedAt {S : Schema} (ts : Time)
    (groups : List (Option (MarketsDiff S))) :
    ∀ x ∈ marketEnvelopes ts groups, x.GeneratedAt = ts := by
  intro x hx
  simp only [marketEnvelopes, List.mem_flatMap, List.mem_filterMap] at hx
  obtain ⟨g, _, d, _, hd⟩ := hx
  cases d with
  | none => simp [marketEnvelopeOf] at hd
  | some md =>
    simp only [marketEnvelopeOf, Option.map_eq_some'] at hd
    obtain ⟨m, _, rfl⟩ := hd
    rfl

theorem resolveTs_eq (now : Time) (ts : Option Timestamp) :
    resolveTs now ts =
      if (parseTimestamp ts).2 = none then (parseTimestamp ts).1 else now := by
  unfold resolveTs
  cases h : parseTimestamp ts with
  | mk t oerr => cases oerr <;> simp

/-- The world `publish` leaves behind when both channels are open. -/
def publishedWorld {S : Schema} (now : Time) (c1 c2 : Chan) (m : StreamEventsResponse S)
    (w : World S) : World S :=
  match m.DiffsMessage with
  | none => w
  | some diff =>
    { w with
      eventsOut := w.eventsOut ++
        (eventEnvelopes (resolveTs now m.GeneratedTs) diff.EventDiffs).map (Prod.mk c1)
      marketsOut := w.marketsOut ++
        (marketEnvelopes (resolveTs now m.GeneratedTs) diff.MarketDiffs).map (Prod.mk c2)
      trace := w.trace ++ eventLogs diff.EventDiffs }

theorem publish_eq {S : Schema} (now : Time) (s : Session) (c1 c2 : Chan)
    (h1 : s.eventsStream = some c1) (h2 : s.marketsStream = some c2)
    (m : StreamEventsResponse S) (w : World S) (hc1 : c1 ∉ w.closed) (hc2 : c2 ∉ w.closed) :
    publish now s m w = some (publishedWorld now c1 c2 m w) := by
  unfold publish publishedWorld
  cases m.DiffsMessage with
  | none => rfl
  | some diff =>
    simp only [DiffsMessage.GetEventDiffs, DiffsMessage.GetMarketDiffs]
    rw [publishEvents_eq s c1 _ h1 _ w hc1]
    simp only []
    rw [publishMarkets_eq s c2 _ h2]
    exact hc2

theorem eventLogs_append {S : Schema} (a b : List (Option (EventDiff S))) :
    eventLogs (a ++ b) = eventLogs a ++ eventLogs b := by
  induction a with
  | nil => rfl
  | cons d rest ih =>
    simp only [List.cons_append, eventLogs]
    cases EventDiff.GetEvent d with
    | none => simpa using ih
    | some event =>
      simp only []
      cases (S.newEvent event).2 with
      | none => simpa using ih
      | some err => simp [ih]

theorem streamEventsCount_append (a b : List Effect) :
    streamEventsCount (a ++ b) = streamEventsCount a + streamEventsCount b :=
  List.countP_append _ a b

theorem streamSettlementsCount_append (a b : List Effect) :
    streamSettlementsCount (a ++ b) = streamSettlementsCount a + streamSettlementsCount b :=
  List.countP_append _ a b

theorem eventLogs_streamEventsCount {S : Schema} (diffs : List (Option (EventDiff S))) :
    streamEventsCount (eventLogs diffs) = 0 := by
  induction diffs with
  | nil => rfl
  | cons d rest ih =>
    unfold eventLogs
    cases EventDiff.GetEvent d with
    | none => simpa using ih
    | some event =>
      simp only []
      cases (S.newEvent event).2 with
      | none => simpa using ih
      | some err =>
        simp only [streamEventsCount, List.countP_cons] at ih ⊢
        simpa using ih

theorem publishedWorld_frame {S : Schema} (now : Time) (c1 c2 : Chan)
    (m : StreamEventsResponse S) (w : World S) :
    (publishedWorld now c1 c2 m w).closed = w.closed ∧
    (publishedWorld now c1 c2 m w).nextChan = w.nextChan ∧
    streamEventsCount (publishedWorld now c1 c2 m w).trace = streamEventsCount w.trace := by
  unfold publishedWorld
  cases m.DiffsMessage with
  | none => simp
  | some diff =>
    refine ⟨rfl, rfl, ?_⟩
    simp only [streamEventsCount, List.countP_append]
    have := eventLogs_streamEventsCount diff.EventDiffs
    simp only [streamEventsCount] at this
    omega

/-- While every `Recv` succeeds, the events loop keeps running on the same
session, closes nothing, makes no channel and issues no request. -/
theorem eventsLoop_ok {S : Schema} (s : Session) (c1 c2 : Chan)
    (h1 : s.eventsStream = some c1) (h2 : s.marketsStream = some c2)
    (rs : List (Time × StreamEventsResponse S)) :
    ∀ w : World S, c1 ∉ w.closed → c2 ∉ w.closed →
      ∃ w1, eventsLoop (rs.map fun r => (r.1, Except.ok r.2)) s w = LoopState.running s w1 ∧
        w1.closed = w.closed ∧ w1.nextChan = w.nextChan ∧
        streamEventsCount w1.trace = streamEventsCount w.trace := by
  induction rs with
  | nil => intro w _ _; exact ⟨w, rfl, rfl, rfl, rfl⟩
  | cons r rest ih =>
    intro w hc1 hc2
    obtain ⟨hcl, hn, ht⟩ := publishedWorld_frame r.1 c1 c2 r.2 w
    obtain ⟨w1, hrun, hcl1, hn1, ht1⟩ :=
      ih (publishedWorld r.1 c1 c2 r.2 w) (by rw [hcl]; exact hc1) (by rw [hcl]; exact hc2)
    refine ⟨w1, ?_, by rw [hcl1, hcl], by rw [hn1, hn], by rw [ht1, ht]⟩
    simp only [List.map_cons, eventsLoop, eventsLoopStep, publish_eq r.1 s c1 c2 h1 h2 r.2 w hc1 hc2]
    exact hrun

/-- The error branch of `eventsLoopStep` is `eventsLoopClose` followed by
`eventsLoopClear`. -/
theorem eventsLoopStep_error_eq {S : Schema} (now : Time) (e : Error) (s : Session)
    (w : World S) :
    eventsLoopStep now (Except.error e) s w =
      match eventsLoopClose s w with
      | none => LoopState.stuck
      | some w1 => LoopState.exited (eventsLoopClear s w1).1 (eventsLoopClear s w1).2 := by
  unfold eventsLoopStep eventsLoopClose eventsLoopClear
  cases h1 : (w.emit Effect.log).closeChan s.eventsStream with
  | none => simp only [h1]
  | some w1 =>
    simp only [h1]

/-- The error branch of `settlementsLoopStep` is `settlementsLoopClose` followed
by `settlementsLoopClear`. -/
theorem settlementsLoopStep_error_eq {S : Schema} (now : Time) (e : Error) (s : Session)
    (w : World S) :
    settlementsLoopStep now (Except.error e) s w =
      match settlementsLoopClose s w with
      | none => LoopState.stuck
      | some w1 =>
        LoopState.exited (settlementsLoopClear s w1).1 (settlementsLoopClear s w1).2 := by
  unfold settlementsLoopStep settlementsLoopClose settlementsLoopClear
  cases h1 : (w.emit Effect.log).closeChan s.eventSettlements <;> simp only [h1]

/-! ## Lemmas on timestamps -/

theorem validateTimestamp_none_iff (ts : Timestamp) :
    validateTimestamp (some ts) = none ↔ ts.InRange := by
  simp only [validateTimestamp, Timestamp.InRange]
  split_ifs <;> simp <;> omega

theorem timeUnix_inRange (ts : Timestamp) (h : ts.InRange) :
    timeUnix ts.Seconds ts.Nanos = ⟨ts.Seconds + unixToInternal, ts.Nanos⟩ := by
  obtain ⟨h1, h2, h3, h4⟩ := h
  unfold minValidSeconds at h1
  unfold maxValidSeconds at h2
  have hn : ¬ (ts.Nanos < 0 ∨ ts.Nanos ≥ 1000000000) := by omega
  simp only [timeUnix, hn, if_false, wrapInt64, unixToInternal, Time.mk.injEq, and_true]
  norm_num
  omega

theorem isZero_iff (t : Time) : t.IsZero = true ↔ t.sec = 0 ∧ t.nsec = 0 := by
  simp [Time.IsZero]


/-! ## Claims -/

/-- C6: `parseTimestamp` returns a nil error exactly when the wire timestamp is
present, is in the range the decoder accepts (seconds of years 1 to 9999, nanos
in [0, 10^9)) and decodes to something other than the zero instant of
`time.Time`; the value returned is always the decoded one, for an accepted
timestamp the seconds shifted to year 1 with the same nanos; the only accepted
timestamp that decodes to the zero instant is 0001-01-01T00:00:00Z; an error
is returned exactly when the timestamp is absent, is rejected, or decodes to
the zero instant; the all-zero wire timestamp gives the Unix epoch without
error. -/
theorem parseTimestamp_characterised (genTs : Option Timestamp) :
    ((parseTimestamp genTs).2 = none ↔
      ∃ ts, genTs = some ts ∧ (ptypesTimestamp (some ts)).2 = none ∧
        (ptypesTimestamp (some ts)).1.IsZero = false) ∧
    ((parseTimestamp genTs).2 = none ↔
      ∃ ts, genTs = some ts ∧ ts.InRange ∧ ¬ (ts.Seconds = minValidSeconds ∧ ts.Nanos = 0) ∧
        (parseTimestamp genTs).1 = ⟨ts.Seconds + unixToInternal, ts.Nanos⟩) ∧
    ((parseTimestamp genTs).1 =
      match genTs with
      | none => Time.zero
      | some ts => (ptypesTimestamp (some ts)).1) ∧
    ((parseTimestamp genTs).2 ≠ none ↔
      genTs = none ∨ (ptypesTimestamp genTs).2 ≠ none ∨
        (ptypesTimestamp genTs).1.IsZero = true) ∧
    parseTimestamp (some ⟨0, 0⟩) = (unixEpoch, none) := by
  refine ⟨?_, ?_, ?_, ?_, by decide⟩
  · cases genTs with
    | none => simp [parseTimestamp, Time.zero, Time.IsZero]
    | some ts =>
      simp only [parseTimestamp, ptypesTimestamp]
      cases hv : validateTimestamp (some ts) with
      | some err => simp [hv]
      | none =>
        simp only []
        split_ifs with hz <;> simp [hz, hv]
  · cases genTs with
    | none => simp [parseTimestamp, Time.zero, Time.IsZero]
    | some ts =>
      simp only [parseTimestamp, ptypesTimestamp]
      cases hv : validateTimestamp (some ts) with
      | some err =>
        have hr : ¬ ts.InRange := by
          rw [← validateTimestamp_none_iff, hv]; simp
        simp [hr]
      | none =>
        have hr : ts.InRange := (validateTimestamp_none_iff ts).1 hv
        have ht := timeUnix_inRange ts hr
        simp only [ht]
        have hzi := isZero_iff ⟨ts.Seconds + unixToInternal, ts.Nanos⟩
        simp only [unixToInternal] at hzi
        split_ifs with hz
        · have hz1 := hzi.1 hz
          constructor
          · intro h; cases h
          · rintro ⟨ts1, hts, -, hne, -⟩
            cases hts
            exact absurd ⟨by unfold minValidSeconds; omega, hz1.2⟩ hne
        · constructor
          · intro _
            refine ⟨ts, rfl, hr, ?_, rfl⟩
            rintro ⟨ha, hb⟩
            unfold minValidSeconds at ha
            exact hz (hzi.2 ⟨by omega, hb⟩)
          · intro _; rfl
  · cases genTs with
    | none => simp [parseTimestamp, Time.zero, Time.IsZero]
    | some ts =>
      simp only [parseTimestamp, ptypesTimestamp]
      cases hv : validateTimestamp (some ts) with
      | some err => simp
      | none =>
        simp only []
        split_ifs <;> rfl
  · cases genTs with
    | none => simp [parseTimestamp, Time.zero, Time.IsZero]
    | some ts =>
      simp only [parseTimestamp, ptypesTimestamp]
      cases hv : validateTimestamp (some ts) with
      | some err => simp [hv]
      | none =>
        simp only []
        split_ifs with hz <;> simp [hz, hv]

/-- C10: on a nil session each accessor returns the "session is not
initialised" error with nil results and does nothing else: the world, and so
the trace of locks, admission waits and requests, is unchanged. -/
theorem nil_session_not_initialised {S : Schema} (env : CallEnv) (eenv : EntitiesEnv S)
    (lastConsumed : Time) (language : String) (w : World S) :
    EventsFeed env none w = (⟨none, none, some Error.notInitialised⟩, none, w) ∧
    SettlementsFeed env none lastConsumed w = (⟨none, some Error.notInitialised⟩, none, w) ∧
    Entities eenv none language w = ((none, some Error.notInitialised), w) :=
  ⟨rfl, rfl, rfl⟩

/-- C1: on an Active session `EventsFeed` returns the two stored channels with a
nil error, the session is unchanged and the only actions are taking and
releasing the entity-feed lock (no admission wait, no subscribe request, no
spawn, no channel made). Consequently, on an Inactive session in a world whose
closed channels were all made earlier, a first call that succeeds, any number
of successful receives of the loop, and a second call (whatever its external
outcomes would be) return the identical channel pair, and the trace then
holds exactly one more subscribe request than before the first call. -/
theorem eventsFeed_idempotent {S : Schema} :
    (∀ (s : Session) (c1 c2 : Chan) (env : CallEnv) (w : World S),
      s.eventsStream = some c1 → s.marketsStream = some c2 →
      EventsFeed env (some s) w =
        (⟨some c1, some c2, none⟩, some s,
          { w with trace := w.trace ++
              [Effect.lock Mutex.eventsFeed, Effect.unlock Mutex.eventsFeed] })) ∧
    (∀ (s0 : Session) (w : World S) (env2 : CallEnv) (rs : List (Time × StreamEventsResponse S)),
      s0.eventsStream = none → s0.marketsStream = none →
      (∀ c ∈ w.closed, c < w.nextChan) →
      ∃ (r : EventsFeedResult) (s1 : Session) (w1 w2 w3 : World S),
        EventsFeed ⟨none, none⟩ (some s0) w = (r, some s1, w1) ∧
        r.err = none ∧ r.events.isSome = true ∧ r.markets.isSome = true ∧
        eventsLoop (rs.map fun x => (x.1, Except.ok x.2)) s1 w1 = LoopState.running s1 w2 ∧
        EventsFeed env2 (some s1) w2 = (r, some s1, w3) ∧
        streamEventsCount w3.trace = streamEventsCount w.trace + 1) := by
  constructor
  · intro s c1 c2 env w h1 h2
    simp [EventsFeed, h1, h2, World.emit]
  · intro s0 w env2 rs h1 h2 hwf
    have hc1 : w.nextChan ∉ w.closed := fun h => Nat.lt_irrefl _ (hwf _ h)
    have hc2 : w.nextChan + 1 ∉ w.closed := by
      intro h
      have hlt : w.nextChan + 1 < w.nextChan := hwf _ h
      omega
    obtain ⟨w2, hrun, hcl, hn, ht⟩ :=
      eventsLoop_ok (S := S)
        { s0 with eventsStream := some w.nextChan, marketsStream := some (w.nextChan + 1) }
        w.nextChan (w.nextChan + 1) rfl rfl rs
        { w with
          nextChan := w.nextChan + 1 + 1
          trace := w.trace ++ [Effect.lock Mutex.eventsFeed] ++ [Effect.limiterWait] ++
            [Effect.streamEvents s0.clientID] ++ [Effect.spawnEventsLoop] ++
            [Effect.unlock Mutex.eventsFeed] }
        hc1 hc2
    refine ⟨⟨some w.nextChan, some (w.nextChan + 1), none⟩, _, _, w2,
      (w2.emit (Effect.lock Mutex.eventsFeed)).emit (Effect.unlock Mutex.eventsFeed),
      ?_, rfl, rfl, rfl, hrun, ?_, ?_⟩
    · simp [EventsFeed, h1, h2, World.emit, World.makeChan]
    · simp only [EventsFeed, Option.isSome_some, Bool.and_self, if_true]
    · have e1 : streamEventsCount [Effect.lock Mutex.eventsFeed] = 0 := rfl
      have e2 : streamEventsCount [Effect.unlock Mutex.eventsFeed] = 0 := rfl
      have e3 : streamEventsCount [Effect.limiterWait] = 0 := rfl
      have e4 : streamEventsCount [Effect.streamEvents s0.clientID] = 1 := rfl
      have e5 : streamEventsCount [Effect.spawnEventsLoop] = 0 := rfl
      simp only [World.emit, streamEventsCount_append, ht, e1, e2, e3, e4, e5]

/-- C3: on an Inactive session, when the admission wait fails, or succeeds and
the subscribe request fails, with error `e`, `EventsFeed` returns `e` with nil
channels; the session is unchanged, so both handles are still nil; the world
changes only by the trace of the attempt, which holds no spawn and after
which no channel has been made; a later call starts again with the admission
wait and, when wait and request succeed, establishes the stream. -/
theorem eventsFeed_failure_atomic {S : Schema} (s : Session) (w : World S) (env : CallEnv)
    (e : Error) (h1 : s.eventsStream = none) (h2 : s.marketsStream = none)
    (hfail : env.wait = some e ∨ (env.wait = none ∧ env.request = some e)) :
    ∃ w1 : World S,
      EventsFeed env (some s) w = (⟨none, none, some e⟩, some s, w1) ∧
      s.eventsStream = none ∧ s.marketsStream = none ∧
      w1 = { w with trace := w.trace ++
        (match env.wait with
          | some _ =>
            [Effect.lock Mutex.eventsFeed, Effect.limiterWait, Effect.unlock Mutex.eventsFeed]
          | none =>
            [Effect.lock Mutex.eventsFeed, Effect.limiterWait, Effect.streamEvents s.clientID,
              Effect.cancel, Effect.unlock Mutex.eventsFeed]) } ∧
      Effect.spawnEventsLoop ∉ w1.trace.drop w.trace.length ∧
      w1.nextChan = w.nextChan ∧
      (EventsFeed ⟨none, none⟩ (some s) w1).1 =
        ⟨some w.nextChan, some (w.nextChan + 1), none⟩ ∧
      (EventsFeed ⟨none, none⟩ (some s) w1).2.2.trace.drop w1.trace.length =
        [Effect.lock Mutex.eventsFeed, Effect.limiterWait, Effect.streamEvents s.clientID,
          Effect.spawnEventsLoop, Effect.unlock Mutex.eventsFeed] := by
  rcases hfail with hw | ⟨hw, hr⟩
  · refine ⟨_, ?_, h1, h2, rfl, ?_, rfl, ?_, ?_⟩
    · simp [EventsFeed, h1, h2, hw, World.emit]
    · simp [hw]
    · simp [EventsFeed, h1, h2, hw, World.emit, World.makeChan]
    · simp [EventsFeed, h1, h2, hw, World.emit, World.makeChan]
  · refine ⟨_, ?_, h1, h2, rfl, ?_, rfl, ?_, ?_⟩
    · simp [EventsFeed, h1, h2, hw, hr, World.emit]
    · simp [hw]
    · simp [EventsFeed, h1, h2, hw, World.emit, World.makeChan]
    · simp [EventsFeed, h1, h2, hw, World.emit, World.makeChan]

/-- C7 (as amended): on a session whose settlement stream is Inactive, a
starting time that has no wire form makes `SettlementsFeed` fail with the
invalid-timestamp error wrapping the validation error, return no channel,
leave the session unchanged and do nothing but take and release the
settlements lock: no admission wait, no request. -/
theorem settlementsFeed_invalid_time {S : Schema} (s : Session) (w : World S) (env : CallEnv)
    (lastConsumed : Time) (hI : s.eventSettlements = none)
    (hbad : ¬ lastConsumed.Representable) :
    ∃ err, (ptypesTimestampProto lastConsumed).2 = some err ∧
      SettlementsFeed env (some s) lastConsumed w =
        (⟨none, some (Error.invalidTime err)⟩, some s,
          { w with trace := w.trace ++
              [Effect.lock Mutex.eventSettlements, Effect.unlock Mutex.eventSettlements] }) := by
  unfold Time.Representable at hbad
  cases hp : ptypesTimestampProto lastConsumed with
  | mk ts oerr =>
    cases oerr with
    | none => rw [hp] at hbad; exact absurd rfl hbad
    | some err =>
      refine ⟨err, rfl, ?_⟩
      simp [SettlementsFeed, hI, hp, World.emit]

/-- Recovery when no accessor call falls inside the teardown: when `Recv` fails
on an Active stream whose channels are open and the whole error branch has
run, the channel(s) of that kind are closed, the handle(s) of that kind are
nil and the handles of the other kind are untouched. The next call of the
accessor of that kind, when admitted (and, for settlements, given a starting
time with a wire form), issues a new request; whenever the call returns a nil
error a new request has been issued and the channel(s) returned were made by
this call: they are not among the closed ones; and the call does succeed when
the wait and the request succeed. -/
theorem no_permanent_poisoning {S : Schema} :
    (∀ (s : Session) (w : World S) (now : Time) (e : Error) (c1 c2 : Chan) (env : CallEnv),
      s.eventsStream = some c1 → s.marketsStream = some c2 → c1 ≠ c2 →
      c1 ∉ w.closed → c2 ∉ w.closed → c1 < w.nextChan → c2 < w.nextChan →
      (∀ c ∈ w.closed, c < w.nextChan) →
      ∃ (s1 : Session) (w1 : World S),
        eventsLoopStep now (Except.error e) s w = LoopState.exited s1 w1 ∧
        s1.eventsStream = none ∧ s1.marketsStream = none ∧
        s1.eventSettlements = s.eventSettlements ∧
        w1.closed = c2 :: c1 :: w.closed ∧
        (env.wait = none →
          streamEventsCount (EventsFeed env (some s1) w1).2.2.trace =
            streamEventsCount w1.trace + 1) ∧
        ((EventsFeed env (some s1) w1).1.err = none →
          streamEventsCount (EventsFeed env (some s1) w1).2.2.trace =
            streamEventsCount w1.trace + 1 ∧
          ∃ a b : Chan, (EventsFeed env (some s1) w1).1 = ⟨some a, some b, none⟩ ∧
            a ∉ w1.closed ∧ b ∉ w1.closed ∧ a ≠ b ∧
            (EventsFeed env (some s1) w1).2.1 =
              some { s1 with eventsStream := some a, marketsStream := some b }) ∧
        (env.wait = none → env.request = none →
          (EventsFeed env (some s1) w1).1.err = none)) ∧
    (∀ (s : Session) (w : World S) (now : Time) (e : Error) (c : Chan) (env : CallEnv)
      (lastConsumed : Time),
      s.eventSettlements = some c → c ∉ w.closed → c < w.nextChan →
      (∀ c ∈ w.closed, c < w.nextChan) →
      ∃ (s1 : Session) (w1 : World S),
        settlementsLoopStep now (Except.error e) s w = LoopState.exited s1 w1 ∧
        s1.eventSettlements = none ∧
        s1.eventsStream = s.eventsStream ∧ s1.marketsStream = s.marketsStream ∧
        w1.closed = c :: w.closed ∧
        (lastConsumed.Representable → env.wait = none →
          streamSettlementsCount (SettlementsFeed env (some s1) lastConsumed w1).2.2.trace =
            streamSettlementsCount w1.trace + 1) ∧
        ((SettlementsFeed env (some s1) lastConsumed w1).1.err = none →
          streamSettlementsCount (SettlementsFeed env (some s1) lastConsumed w1).2.2.trace =
            streamSettlementsCount w1.trace + 1 ∧
          ∃ a : Chan, (SettlementsFeed env (some s1) lastConsumed w1).1 = ⟨some a, none⟩ ∧
            a ∉ w1.closed ∧
            (SettlementsFeed env (some s1) lastConsumed w1).2.1 =
              some { s1 with eventSettlements := some a }) ∧
        (lastConsumed.Representable → env.wait = none → env.request = none →
          (SettlementsFeed env (some s1) lastConsumed w1).1.err = none)) := by
  constructor
  · intro s w now e c1 c2 env h1 h2 hne hc1 hc2 hl1 hl2 hwf
    have hc2' : c2 ∉ c1 :: w.closed := by
      simp only [List.mem_cons, not_or]
      exact ⟨fun h => hne h.symm, hc2⟩
    have hn1 : w.nextChan ∉ c2 :: c1 :: w.closed := by
      simp only [List.mem_cons, not_or]
      refine ⟨?_, ?_, fun h => Nat.lt_irrefl _ (hwf _ h)⟩
      · intro h; rw [← h] at hl2; exact Nat.lt_irrefl _ hl2
      · intro h; rw [← h] at hl1; exact Nat.lt_irrefl _ hl1
    have hn2 : w.nextChan + 1 ∉ c2 :: c1 :: w.closed := by
      simp only [List.mem_cons, not_or]
      refine ⟨?_, ?_, ?_⟩
      · intro h
        have hlt : w.nextChan + 1 < w.nextChan := by rw [h]; exact hl2
        omega
      · intro h
        have hlt : w.nextChan + 1 < w.nextChan := by rw [h]; exact hl1
        omega
      · intro h
        have hlt : w.nextChan + 1 < w.nextChan := hwf _ h
        omega
    refine ⟨{ s with eventsStream := none, marketsStream := none },
      { w with closed := c2 :: c1 :: w.closed,
               trace := w.trace ++ [Effect.log] ++ [Effect.cancel] }, ?_, rfl, rfl, rfl, rfl,
      ?_, ?_, ?_⟩
    · simp [eventsLoopStep, World.closeChan, World.emit, h1, h2, hc1, hc2']
    · intro hw
      cases hr : env.request <;>
        simp [EventsFeed, hw, hr, World.emit, World.makeChan, streamEventsCount,
          List.countP_append, List.countP_cons]
    · cases hw : env.wait with
      | some err => simp [EventsFeed, hw, World.emit]
      | none =>
        cases hr : env.request with
        | some err => simp [EventsFeed, hw, hr, World.emit]
        | none =>
          intro _
          refine ⟨?_, w.nextChan, w.nextChan + 1, ?_, hn1, hn2, Nat.ne_of_lt (Nat.lt_succ_self _), ?_⟩
          · simp [EventsFeed, hw, hr, World.emit, World.makeChan, streamEventsCount,
              List.countP_append, List.countP_cons]
          · simp [EventsFeed, hw, hr, World.emit, World.makeChan]
          · simp [EventsFeed, hw, hr, World.emit, World.makeChan]
    · intro hw hr
      simp [EventsFeed, hw, hr, World.emit, World.makeChan]
  · intro s w now e c env lastConsumed h1 hc hl hwf
    have hn1 : w.nextChan ∉ c :: w.closed := by
      simp only [List.mem_cons, not_or]
      refine ⟨?_, fun h => Nat.lt_irrefl _ (hwf _ h)⟩
      intro h; rw [← h] at hl; exact Nat.lt_irrefl _ hl
    refine ⟨{ s with eventSettlements := none },
      { w with closed := c :: w.closed,
               trace := w.trace ++ [Effect.log] ++ [Effect.cancel] }, ?_, rfl, rfl, rfl, rfl,
      ?_, ?_, ?_⟩
    · simp [settlementsLoopStep, World.closeChan, World.emit, h1, hc]
    · intro hrep hw
      unfold Time.Representable at hrep
      cases hp : ptypesTimestampProto lastConsumed with
      | mk ts oerr =>
        rw [hp] at hrep
        simp only at hrep
        subst hrep
        cases hr : env.request <;>
          simp [SettlementsFeed, hp, hw, hr, World.emit, World.makeChan,
            streamSettlementsCount, List.countP_append, List.countP_cons]
    · cases hp : ptypesTimestampProto lastConsumed with
      | mk ts oerr =>
        cases oerr with
        | some err => simp [SettlementsFeed, hp, World.emit]
        | none =>
          cases hw : env.wait with
          | some err => simp [SettlementsFeed, hp, hw, World.emit]
          | none =>
            cases hr : env.request with
            | some err => simp [SettlementsFeed, hp, hw, hr, World.emit]
            | none =>
              intro _
              refine ⟨?_, w.nextChan, ?_, hn1, ?_⟩
              · simp [SettlementsFeed, hp, hw, hr, World.emit, World.makeChan,
                  streamSettlementsCount, List.countP_append, List.countP_cons]
              · simp [SettlementsFeed, hp, hw, hr, World.emit, World.makeChan]
              · simp [SettlementsFeed, hp, hw, hr, World.emit, World.makeChan]
    · intro hrep hw hr
      unfold Time.Representable at hrep
      cases hp : ptypesTimestampProto lastConsumed with
      | mk ts oerr =>
        rw [hp] at hrep
        simp only at hrep
        subst hrep
        simp [SettlementsFeed, hp, hw, hr, World.emit, World.makeChan]

/-- C4 (as amended): with both channels open, `publish` returns, and by then it
has written to the entity channel exactly as many envelopes as the message
has entity diffs with a present payload, and to the market channel exactly as
many as it has non-nil market diffs with a present payload (over all groups);
these are at most N and M; every envelope carries the same resolved
generation timestamp: the decoded wire value, or the one clock reading when
resolution fails. -/
theorem publish_counts {S : Schema} (now : Time) (s : Session) (c1 c2 : Chan)
    (m : StreamEventsResponse S) (w : World S)
    (h1 : s.eventsStream = some c1) (h2 : s.marketsStream = some c2)
    (hc1 : c1 ∉ w.closed) (hc2 : c2 ∉ w.closed) :
    ∃ (w1 : World S) (es : List (EventEnvelope S)) (ms : List (MarketEnvelope S)),
      publish now s m w = some w1 ∧
      w1.eventsOut = w.eventsOut ++ es.map (Prod.mk c1) ∧
      w1.marketsOut = w.marketsOut ++ ms.map (Prod.mk c2) ∧
      es.length = presentEntityDiffCount m ∧ ms.length = presentMarketDiffCount m ∧
      es.length ≤ entityDiffCount m ∧ ms.length ≤ marketDiffCount m ∧
      (∀ x ∈ es, x.GeneratedAt = resolveTs now m.GeneratedTs) ∧
      (∀ x ∈ ms, x.GeneratedAt = resolveTs now m.GeneratedTs) ∧
      resolveTs now m.GeneratedTs =
        if (parseTimestamp m.GeneratedTs).2 = none then (parseTimestamp m.GeneratedTs).1
        else now := by
  refine ⟨publishedWorld now c1 c2 m w,
    eventEnvelopes (resolveTs now m.GeneratedTs) (DiffsMessage.GetEventDiffs m.DiffsMessage),
    marketEnvelopes (resolveTs now m.GeneratedTs) (DiffsMessage.GetMarketDiffs m.DiffsMessage),
    publish_eq now s c1 c2 h1 h2 m w hc1 hc2, ?_, ?_, ?_, ?_, ?_, ?_,
    eventEnvelopes_generatedAt _ _, marketEnvelopes_generatedAt _ _, resolveTs_eq _ _⟩
  · unfold publishedWorld
    cases m.DiffsMessage <;> simp [DiffsMessage.GetEventDiffs, eventEnvelopes]
  · unfold publishedWorld
    cases m.DiffsMessage <;> simp [DiffsMessage.GetMarketDiffs, marketEnvelopes]
  · rw [eventEnvelopes_length]; rfl
  · rw [marketEnvelopes_length]; rfl
  · rw [eventEnvelopes_length]
    exact List.length_filter_le _ _
  · rw [marketEnvelopes_length]
    unfold marketDiffCount
    generalize DiffsMessage.GetMarketDiffs m.DiffsMessage = groups
    induction groups with
    | nil => simp
    | cons g rest ih =>
      simp only [List.map_cons, List.sum_cons]
      exact Nat.add_le_add (List.length_filter_le _ _) ih

/-- C5: with both channels open, for a message that has a diffs payload the
entity channel receives, in source order, one envelope (converted entity,
resolved timestamp, diff action) per entity diff whose payload is present,
and the market channel receives, in source order of groups and then of diffs,
one envelope (group's event id, converted market, resolved timestamp, diff
action) per non-nil market diff whose payload is present; a diff with an
absent payload gives no envelope; nothing else is written, closed or made;
a message without a diffs payload leaves the world as it is. -/
theorem publish_content_order {S : Schema} (now : Time) (s : Session) (c1 c2 : Chan)
    (m : StreamEventsResponse S) (w : World S)
    (h1 : s.eventsStream = some c1) (h2 : s.marketsStream = some c2)
    (hc1 : c1 ∉ w.closed) (hc2 : c2 ∉ w.closed) :
    (m.DiffsMessage = none → publish now s m w = some w) ∧
    (∀ diff, m.DiffsMessage = some diff →
      ∃ w1, publish now s m w = some w1 ∧
        w1.eventsOut = w.eventsOut ++
          (diff.EventDiffs.filterMap fun d =>
            (EventDiff.GetEvent d).map fun event =>
              (c1, (⟨(S.newEvent event).1, resolveTs now m.GeneratedTs,
                S.newFeedAction (EventDiff.GetDiffType d)⟩ : EventEnvelope S))) ∧
        w1.marketsOut = w.marketsOut ++
          (diff.MarketDiffs.flatMap fun g =>
            (MarketsDiff.GetEventMarketsDiffs g).filterMap fun d =>
              (MarketDiff.GetMarket d).map fun market =>
                (c2, (⟨MarketsDiff.GetEventId g, S.newMarket market,
                  resolveTs now m.GeneratedTs,
                  S.newFeedAction (MarketDiff.GetDiffType d)⟩ : MarketEnvelope S))) ∧
        w1.settlementsOut = w.settlementsOut ∧ w1.closed = w.closed ∧
        w1.nextChan = w.nextChan) := by
  have hp := publish_eq now s c1 c2 h1 h2 m w hc1 hc2
  constructor
  · intro hm
    rw [hp]
    simp [publishedWorld, hm]
  · intro diff hm
    refine ⟨publishedWorld now c1 c2 m w, hp, ?_, ?_, ?_, ?_, ?_⟩
    · simp only [publishedWorld, hm, eventEnvelopes, List.map_filterMap, eventEnvelopeOf,
        Option.map_map]
      rfl
    · simp only [publishedWorld, hm, marketEnvelopes, List.map_flatMap, List.map_filterMap]
      congr 2
      funext g
      congr 1
      funext d
      cases d with
      | none => rfl
      | some md =>
        simp only [marketEnvelopeOf, MarketDiff.GetMarket, MarketDiff.GetDiffType,
          Option.map_map]
        rfl
    · simp [publishedWorld, hm]
    · simp [publishedWorld, hm]
    · simp [publishedWorld, hm]

/-- What the entity worker does with a conversion failure, at any position of
any message: with both channels open, `publish` writes the envelopes of the
diffs before the failing one, then one envelope for it carrying what
`newEvent` returned, the resolved timestamp and the diff action, then the
envelopes of the diffs after it, and logs two lines for the failure;
`publish` returns and the receive loop goes on to its next `Recv`. -/
theorem publish_conversion_failure_emits {S : Schema} (now : Time) (s : Session)
    (c1 c2 : Chan) (m : StreamEventsResponse S) (w : World S) (diff : DiffsMessage S)
    (pre post : List (Option (EventDiff S))) (d : EventDiff S) (event : S.FeedEvent)
    (err : Error)
    (h1 : s.eventsStream = some c1) (h2 : s.marketsStream = some c2)
    (hc1 : c1 ∉ w.closed) (hc2 : c2 ∉ w.closed)
    (hm : m.DiffsMessage = some diff) (hd : diff.EventDiffs = pre ++ some d :: post)
    (hev : d.Event = some event) (herr : (S.newEvent event).2 = some err) :
    ∃ w1, publish now s m w = some w1 ∧
      w1.eventsOut = w.eventsOut ++
        (eventEnvelopes (resolveTs now m.GeneratedTs) pre ++
          [(⟨(S.newEvent event).1, resolveTs now m.GeneratedTs,
            S.newFeedAction d.DiffType⟩ : EventEnvelope S)] ++
          eventEnvelopes (resolveTs now m.GeneratedTs) post).map (Prod.mk c1) ∧
      w1.trace = w.trace ++ (eventLogs pre ++ [Effect.log, Effect.log] ++ eventLogs post) ∧
      eventsLoopStep now (Except.ok m) s w = LoopState.running s w1 := by
  have hp := publish_eq now s c1 c2 h1 h2 m w hc1 hc2
  refine ⟨publishedWorld now c1 c2 m w, hp, ?_, ?_, ?_⟩
  · simp [publishedWorld, hm, hd, eventEnvelopes, List.filterMap_append, eventEnvelopeOf,
      EventDiff.GetEvent, EventDiff.GetDiffType, hev]
  · simp [publishedWorld, hm, hd, eventLogs_append, eventLogs, EventDiff.GetEvent, hev, herr]
  · simp [eventsLoopStep, hp]

/-- C8: in the settlement loop with the channel open, a received response with a
batch makes the loop write one envelope per item of the batch, in source
order, each with the converted item and the resolved diff timestamp (the
decoded wire value, or the clock reading when resolution fails), and go on to
the next `Recv`; a response without a batch makes it write nothing and close
nothing (the world only gains a log line), keep the session as it is, and go
on to the next `Recv`. -/
theorem settlementsLoop_per_response {S : Schema} (now : Time) (s : Session) (c : Chan)
    (w : World S) (resp : StreamSettlementsResponse S)
    (rest : List (Time × Except Error (StreamSettlementsResponse S)))
    (h : s.eventSettlements = some c) (hc : c ∉ w.closed) :
    (∀ batch, resp.MultipleEventsSettlement = some batch →
      settlementsLoopStep now (Except.ok resp) s w =
        LoopState.running s
          { w with settlementsOut := w.settlementsOut ++
              batch.EventSettlement.map fun item =>
                (c, ⟨S.newEventSettlement item, resolveTs now resp.DiffTimestamp⟩) } ∧
      settlementsLoop ((now, Except.ok resp) :: rest) s w =
        settlementsLoop rest s
          { w with settlementsOut := w.settlementsOut ++
              batch.EventSettlement.map fun item =>
                (c, ⟨S.newEventSettlement item, resolveTs now resp.DiffTimestamp⟩) }) ∧
    (resp.MultipleEventsSettlement = none →
      settlementsLoopStep now (Except.ok resp) s w =
        LoopState.running s { w with trace := w.trace ++ [Effect.log] } ∧
      settlementsLoop ((now, Except.ok resp) :: rest) s w =
        settlementsLoop rest s { w with trace := w.trace ++ [Effect.log] }) ∧
    resolveTs now resp.DiffTimestamp =
      if (parseTimestamp resp.DiffTimestamp).2 = none then (parseTimestamp resp.DiffTimestamp).1
      else now := by
  refine ⟨?_, ?_, resolveTs_eq _ _⟩
  · intro batch hb
    have hstep : settlementsLoopStep now (Except.ok resp) s w =
        LoopState.running s
          { w with settlementsOut := w.settlementsOut ++
              batch.EventSettlement.map fun item =>
                (c, ⟨S.newEventSettlement item, resolveTs now resp.DiffTimestamp⟩) } := by
      simp only [settlementsLoopStep, hb, MultipleEventsSettlement.GetEventSettlement]
      rw [publishSettlements_eq s c _ h _ w hc]
    exact ⟨hstep, by simp only [settlementsLoop, hstep]⟩
  · intro hb
    have hstep : settlementsLoopStep now (Except.ok resp) s w =
        LoopState.running s { w with trace := w.trace ++ [Effect.log] } := by
      simp only [settlementsLoopStep, hb, World.emit]
    exact ⟨hstep, by simp only [settlementsLoop, hstep]⟩

/-! ## Concrete instances -/

/-- C1 at concrete inputs: the Active session `activeSession`, and two calls
from the initial session around one successful receive. -/
theorem eventsFeed_idempotent_witness :
    EventsFeed ⟨some (Error.external 1), some (Error.external 2)⟩ (some activeSession)
        activeWorld =
      (⟨some 0, some 1, none⟩, some activeSession,
        { activeWorld with trace := activeWorld.trace ++
            [Effect.lock Mutex.eventsFeed, Effect.unlock Mutex.eventsFeed] }) ∧
    ∃ (r : EventsFeedResult) (s1 : Session) (w1 w2 w3 : World natSchema),
      EventsFeed ⟨none, none⟩ (some (Session.init 30)) (World.init natSchema) =
        (r, some s1, w1) ∧
      r.err = none ∧ r.events.isSome = true ∧ r.markets.isSome = true ∧
      eventsLoop ([(unixEpoch, mixedMessage)].map fun x => (x.1, Except.ok x.2)) s1 w1 =
        LoopState.running s1 w2 ∧
      EventsFeed ⟨some (Error.external 1), none⟩ (some s1) w2 = (r, some s1, w3) ∧
      streamEventsCount w3.trace = streamEventsCount (World.init natSchema).trace + 1 :=
  ⟨eventsFeed_idempotent.1 activeSession 0 1 _ activeWorld rfl rfl,
    eventsFeed_idempotent.2 (Session.init 30) (World.init natSchema) _ _ rfl rfl
      (by simp [World.init])⟩

/-- The recovery after a completed teardown at concrete inputs: a receive error
on each stream of `activeSession`. -/
theorem no_permanent_poisoning_witness :
    (∃ (s1 : Session) (w1 : World natSchema),
      eventsLoopStep unixEpoch (Except.error (Error.external 9)) activeSession activeWorld =
        LoopState.exited s1 w1 ∧
      s1.eventsStream = none ∧ s1.marketsStream = none ∧
      s1.eventSettlements = some 2 ∧ w1.closed = [1, 0] ∧
      (EventsFeed ⟨none, none⟩ (some s1) w1).1 = ⟨some 3, some 4, none⟩) ∧
    (∃ (s1 : Session) (w1 : World natSchema),
      settlementsLoopStep unixEpoch (Except.error (Error.external 9)) activeSession
          activeWorld = LoopState.exited s1 w1 ∧
      s1.eventSettlements = none ∧ s1.eventsStream = some 0 ∧ s1.marketsStream = some 1 ∧
      w1.closed = [2] ∧
      (SettlementsFeed ⟨none, none⟩ (some s1) unixEpoch w1).1 = ⟨some 3, none⟩) := by
  constructor
  · obtain ⟨s1, w1, hstep, he, hm, hs, hcl, _, hsucc, hok⟩ :=
      no_permanent_poisoning.1 activeSession activeWorld unixEpoch (Error.external 9) 0 1
        ⟨none, none⟩ rfl rfl (by decide) (by simp [activeWorld]) (by simp [activeWorld])
        (by decide) (by decide) (by simp [activeWorld])
    refine ⟨s1, w1, hstep, he, hm, hs, hcl, ?_⟩
    simp only [eventsLoopStep, World.emit, World.closeChan] at hstep
    cases hstep
    rfl
  · obtain ⟨s1, w1, hstep, hs, he, hm, hcl, _, hsucc, hok⟩ :=
      no_permanent_poisoning.2 activeSession activeWorld unixEpoch (Error.external 9) 2
        ⟨none, none⟩ unixEpoch rfl (by simp [activeWorld]) (by decide) (by simp [activeWorld])
    refine ⟨s1, w1, hstep, hs, he, hm, hcl, ?_⟩
    simp only [settlementsLoopStep, World.emit, World.closeChan] at hstep
    cases hstep
    rfl

/-- C3 at a concrete input: the request fails on the initial session. -/
theorem eventsFeed_failure_atomic_witness :
    (Session.init 30).eventsStream = none ∧ (Session.init 30).marketsStream = none ∧
    ∃ w1 : World natSchema,
      EventsFeed ⟨none, some (Error.external 7)⟩ (some (Session.init 30))
          (World.init natSchema) =
        (⟨none, none, some (Error.external 7)⟩, some (Session.init 30), w1) ∧
      w1.nextChan = 0 ∧
      (EventsFeed ⟨none, none⟩ (some (Session.init 30)) w1).1 = ⟨some 0, some 1, none⟩ := by
  obtain ⟨w1, hcall, h1, h2, _, _, hn, hnext, _⟩ :=
    eventsFeed_failure_atomic (Session.init 30) (World.init natSchema)
      ⟨none, some (Error.external 7)⟩ (Error.external 7) rfl rfl (Or.inr ⟨rfl, rfl⟩)
  exact ⟨h1, h2, w1, hcall, hn, hnext⟩

/-- C4 as stated fails: `absentPayloadMessage` has one entity diff and one
market diff, and `publish` writes no envelope on either channel. -/
theorem publish_counts_counterexample :
    entityDiffCount absentPayloadMessage = 1 ∧ marketDiffCount absentPayloadMessage = 1 ∧
    (publish unixEpoch activeSession absentPayloadMessage activeWorld).map
      (fun w => (w.eventsOut.length, w.marketsOut.length)) = some (0, 0) := by
  decide

/-- C4 (as amended) at a concrete input: `mixedMessage` gives two entity
envelopes and two market envelopes. -/
theorem publish_counts_witness :
    activeSession.eventsStream = some 0 ∧ activeSession.marketsStream = some 1 ∧
    0 ∉ activeWorld.closed ∧ 1 ∉ activeWorld.closed ∧
    ∃ (w1 : World natSchema) (es : List (EventEnvelope natSchema))
        (ms : List (MarketEnvelope natSchema)),
      publish unixEpoch activeSession mixedMessage activeWorld = some w1 ∧
      w1.eventsOut = activeWorld.eventsOut ++ es.map (Prod.mk 0) ∧
      w1.marketsOut = activeWorld.marketsOut ++ ms.map (Prod.mk 1) ∧
      es.length = 2 ∧ ms.length = 2 := by
  obtain ⟨w1, es, ms, hp, he, hm, hel, hml, _⟩ :=
    publish_counts unixEpoch activeSession 0 1 mixedMessage activeWorld rfl rfl
      (by simp [activeWorld]) (by simp [activeWorld])
  exact ⟨rfl, rfl, by simp [activeWorld], by simp [activeWorld], w1, es, ms, hp, he, hm,
    hel.trans (by decide), hml.trans (by decide)⟩

/-- C5 at a concrete input: what `publish` writes for `mixedMessage`. -/
theorem publish_content_order_witness :
    activeSession.eventsStream = some 0 ∧ activeSession.marketsStream = some 1 ∧
    0 ∉ activeWorld.closed ∧ 1 ∉ activeWorld.closed ∧
    ∃ w1, publish unixEpoch activeSession mixedMessage activeWorld = some w1 ∧
      w1.eventsOut = [(0, ⟨102, ⟨unixToInternal + 5, 0⟩, 1⟩), (0, ⟨103, ⟨unixToInternal + 5, 0⟩, 2⟩)] ∧
      w1.marketsOut = [(1, ⟨7, 204, ⟨unixToInternal + 5, 0⟩, 1⟩), (1, ⟨8, 206, ⟨unixToInternal + 5, 0⟩, 3⟩)] := by
  obtain ⟨w1, hp, he, hm, _⟩ :=
    (publish_content_order unixEpoch activeSession 0 1 mixedMessage activeWorld rfl rfl
      (by simp [activeWorld]) (by simp [activeWorld])).2 _ rfl
  exact ⟨rfl, rfl, by simp [activeWorld], by simp [activeWorld], w1, hp, he, hm⟩

/-- C7 as stated fails: on a session whose settlement stream is Active a
starting time with no wire form is not looked at: the call returns the live
channel and a nil error. -/
theorem settlementsFeed_invalid_time_counterexample :
    ¬ beforeYearOne.Representable ∧
    (SettlementsFeed ⟨none, none⟩ (some activeSession) beforeYearOne activeWorld).1 =
      ⟨some 2, none⟩ := by
  decide

/-- C7 (as amended) at a concrete input: the initial session and a time before
year 1. -/
theorem settlementsFeed_invalid_time_witness :
    (Session.init 30).eventSettlements = none ∧ ¬ beforeYearOne.Representable ∧
    SettlementsFeed ⟨none, none⟩ (some (Session.init 30)) beforeYearOne (World.init natSchema) =
      (⟨none, some (Error.invalidTime Error.tsBefore)⟩, some (Session.init 30),
        { World.init natSchema with trace :=
            [Effect.lock Mutex.eventSettlements, Effect.unlock Mutex.eventSettlements] }) := by
  obtain ⟨err, herr, hcall⟩ :=
    settlementsFeed_invalid_time (Session.init 30) (World.init natSchema) ⟨none, none⟩
      beforeYearOne rfl (by decide)
  have he : err = Error.tsBefore := by
    have h2 : (ptypesTimestampProto beforeYearOne).2 = some Error.tsBefore := by decide
    rw [h2] at herr
    exact (Option.some.inj herr).symm
  subst he
  exact ⟨rfl, by decide, hcall⟩

/-- C8 at a concrete input: a batch of two items without a timestamp is
written with the clock reading. -/
theorem settlementsLoop_per_response_witness :
    activeSession.eventSettlements = some 2 ∧ 2 ∉ activeWorld.closed ∧
    settlementsLoopStep unixEpoch (Except.ok settlementBatch) activeSession activeWorld =
      LoopState.running activeSession
        { activeWorld with settlementsOut := [(2, ⟨301, unixEpoch⟩), (2, ⟨300, unixEpoch⟩)] } :=
  ⟨rfl, by simp [activeWorld],
    ((settlementsLoop_per_response unixEpoch activeSession 2 activeWorld settlementBatch []
      rfl (by simp [activeWorld])).1 _ rfl).1⟩

/-- C9: the code at the failing input. The only entity diff of
`malformedMessage` has a payload for which `newEvent` returns an error; the
claim has `publish` write no envelope for it, and `publish` writes one,
carrying what the failed conversion returned (101) and the diff action (2),
after logging the failure twice. -/
theorem publish_malformed_item_emitted :
    (natSchema.newEvent 1).2 = some (Error.external 1) ∧
    (publish unixEpoch activeSession malformedMessage activeWorld).map
      (fun w => w.eventsOut.map fun x => (x.1, x.2.EventDiff, x.2.Action)) =
        some [(0, 101, 2)] ∧
    (publish unixEpoch activeSession malformedMessage activeWorld).map
      (fun w => w.trace) = some [Effect.log, Effect.log] := by
  decide

/-- The conversion failure in the middle of `mixedMessage`: its envelope is
written between those of its neighbours. -/
theorem publish_conversion_failure_emits_witness :
    (natSchema.newEvent 3).2 = some (Error.external 3) ∧
    ∃ w1, publish unixEpoch activeSession mixedMessage activeWorld = some w1 ∧
      w1.eventsOut.map (fun x => x.2.EventDiff) = [102, 103] ∧
      eventsLoopStep unixEpoch (Except.ok mixedMessage) activeSession activeWorld =
        LoopState.running activeSession w1 := by
  obtain ⟨w1, hp, he, _, hl⟩ :=
    publish_conversion_failure_emits unixEpoch activeSession 0 1 mixedMessage activeWorld
      ⟨[some ⟨some 2, 1⟩, some ⟨some 3, 2⟩, some ⟨none, 3⟩],
        [some ⟨7, [some ⟨some 4, 1⟩, none]⟩, none, some ⟨8, [some ⟨none, 2⟩, some ⟨some 6, 3⟩]⟩]⟩
      [some ⟨some 2, 1⟩] [some ⟨none, 3⟩] ⟨some 3, 2⟩ 3 (Error.external 3)
      rfl rfl (by simp [activeWorld]) (by simp [activeWorld]) rfl rfl rfl rfl
  refine ⟨rfl, w1, hp, ?_, hl⟩
  rw [he]
  rfl

/-- C2: the code at the failing input. `Recv` fails on each stream of
`activeSession`; the loop has closed the channel(s) and not yet cleared the
handle(s). The accessor call a consumer makes on seeing the closure then
returns the closed channel(s) (0 and 1, resp. 2) with a nil error, takes and
releases only its lock, and issues no new request, where the claim has it
issue a request and return new channels. -/
theorem closed_channels_returned_during_teardown :
    ((eventsLoopClose activeSession activeWorld).map fun w1 =>
        (w1.closed, (EventsFeed ⟨none, none⟩ (some activeSession) w1).1,
          (EventsFeed ⟨none, none⟩ (some activeSession) w1).2.1,
          (EventsFeed ⟨none, none⟩ (some activeSession) w1).2.2.trace.drop w1.trace.length,
          streamEventsCount (EventsFeed ⟨none, none⟩ (some activeSession) w1).2.2.trace)) =
      some ([1, 0], ⟨some 0, some 1, none⟩, some activeSession,
        [Effect.lock Mutex.eventsFeed, Effect.unlock Mutex.eventsFeed], 0) ∧
    ((settlementsLoopClose activeSession activeWorld).map fun w1 =>
        (w1.closed, (SettlementsFeed ⟨none, none⟩ (some activeSession) unixEpoch w1).1,
          (SettlementsFeed ⟨none, none⟩ (some activeSession) unixEpoch w1).2.1,
          (SettlementsFeed ⟨none, none⟩ (some activeSession) unixEpoch w1).2.2.trace.drop
            w1.trace.length,
          streamSettlementsCount
            (SettlementsFeed ⟨none, none⟩ (some activeSession) unixEpoch w1).2.2.trace)) =
      some ([2], ⟨some 2, none⟩, some activeSession,
        [Effect.lock Mutex.eventSettlements, Effect.unlock Mutex.eventSettlements], 0) := by
  exact ⟨rfl, rfl⟩

end XFeed
